import Mathlib

/-!
Verification of the client-side validator of the Financial Report Template
form (erpnext/accounts/doctype/financial_report_template/financial_report_template.js).

The JavaScript under study is the `validate` handler together with the helper
`validate_formulas`.  We embed the document model (a template with an optional
list of rows, each row carrying optional string fields), the diagnostics the
code can emit through `frappe.msgprint`, and the handler itself as a state
transformer over a form state.  JavaScript exceptions (the `TypeError` raised
by `frm.doc.rows.map` when `rows` is `undefined`) are modelled with an explicit
result constructor carrying the state at the time of the throw.
-/

namespace FinancialReportTemplate

/-- One child row of a Financial Report Template.  Every field a row may lack
at runtime (`undefined` in JavaScript) is an `Option`. -/
structure Row where
  reference_code : Option String := none
  row_type : Option String := none
  calculation_formula : Option String := none
deriving DecidableEq

/-- The Financial Report Template document (`frm.doc`): the `is_standard`
flag read by the `refresh` handler and the optional child table `rows`. -/
structure Template where
  is_standard : Bool := false
  rows : Option (List Row) := none
deriving DecidableEq

/-- The diagnostics the validator can emit, one constructor per
`frappe.msgprint` call site, carrying the arguments interpolated into the
message template. -/
inductive Diag where
  | missingRows : Diag
  | unbalancedParens : Nat → Diag
  | unknownRefCode : Nat → String → Diag
deriving DecidableEq

/-- The user-facing text of each diagnostic, with `__` taken as identity. -/
def Diag.render : Diag → String
  | .missingRows => "At least one row is required for a financial report template"
  | .unbalancedParens n => "Formula in row " ++ toString n ++ " has unbalanced parentheses"
  | .unknownRefCode n c => "Formula in row " ++ toString n ++ " references non-existent code: " ++ c

/-- Form state threaded through the handler: the document and the messages
printed so far, in emission order. -/
structure FormState where
  doc : Template
  diags : List Diag
deriving DecidableEq

/-- The `frappe.msgprint` primitive: appends one diagnostic, touches nothing
else. -/
def msgprint (d : Diag) (s : FormState) : FormState :=
  { s with diags := s.diags ++ [d] }

/-- JavaScript truthiness of an optional string: `undefined` and the empty
string are falsy, every other string is truthy. -/
def jsTruthy : Option String → Bool
  | none => false
  | some str => decide (str ≠ "")

/-- The computation `frm.doc.rows.map((r) => r.reference_code).filter(Boolean)`:
project `reference_code` over the rows, keep the truthy values. -/
def rowCodes (rows : List Row) : List String :=
  ((rows.map Row.reference_code).filter jsTruthy).filterMap id

/-- Number of occurrences of a left parenthesis in the formula text, the
value of `(row.calculation_formula.match(/\(/g) || []).length`. -/
def open_count (f : String) : Nat := f.data.count '('

/-- Number of occurrences of a right parenthesis in the formula text. -/
def close_count (f : String) : Nat := f.data.count ')'

/-- Whether the first list starts with the second. -/
def charsHavePrefix : List Char → List Char → Bool
  | [], _ => true
  | _ :: _, [] => false
  | a :: as, b :: bs => b == a && charsHavePrefix as bs

/-- Whether the needle occurs contiguously inside the haystack. -/
def charsHaveSub (sub : List Char) : List Char → Bool
  | [] => charsHavePrefix sub []
  | c :: rest => charsHavePrefix sub (c :: rest) || charsHaveSub sub rest

/-- JavaScript `s.includes(sub)`: substring containment. -/
def jsIncludes (s sub : String) : Bool := charsHaveSub sub.data s.data

/-- The inner `row_codes.forEach((code) => ...)` loop of the referential
check: for each code, if the formula contains it and `row_codes` does not
contain it, print the unknown-reference message.  `codes` is `row_codes`,
`cs` the remaining iteration suffix. -/
def emitRefDiags (codes : List String) (f : String) (i : Nat) : List String → FormState → FormState
  | [], s => s
  | code :: rest, s =>
    emitRefDiags codes f i rest
      (if jsIncludes f code && !(codes.contains code) then
        msgprint (.unknownRefCode (i + 1) code) s
      else s)

/-- The body of `frm.doc.rows.forEach((row, i) => ...)`: skip a row with a
falsy `calculation_formula`; otherwise run the parenthesis-count check, and,
when `row_type` equals `"Formula/Calculation"`, the referential check. -/
def emitRow (codes : List String) (i : Nat) (row : Row) (s : FormState) : FormState :=
  match row.calculation_formula with
  | none => s
  | some f =>
    if f = "" then s
    else
      let s1 := if open_count f ≠ close_count f then msgprint (.unbalancedParens (i + 1)) s else s
      if row.row_type = some "Formula/Calculation" then emitRefDiags codes f i codes s1
      else s1

/-- The `forEach` traversal of the rows with its running index. -/
def validate_formulas_go (codes : List String) : Nat → List Row → FormState → FormState
  | _, [], s => s
  | i, row :: rest, s => validate_formulas_go codes (i + 1) rest (emitRow codes i row s)

/-- Outcome of running a handler: normal completion, or a thrown JavaScript
error; either way the form state at that moment is kept. -/
inductive JsResult (α : Type) where
  | ok : α → JsResult α
  | threw : α → JsResult α
deriving DecidableEq

/-- The state carried by either outcome. -/
def JsResult.state : JsResult FormState → FormState
  | .ok s => s
  | .threw s => s

/-- Whether the run ended in a thrown error. -/
def JsResult.isThrew {α : Type} : JsResult α → Bool
  | .ok _ => false
  | .threw _ => true

/-- The function `validate_formulas(frm)`.  Its first statement evaluates
`frm.doc.rows.map(...)`, which throws a `TypeError` when `rows` is absent
(`undefined`); with rows present it builds `row_codes` and runs the row
loop. -/
def validate_formulas (s : FormState) : JsResult FormState :=
  match s.doc.rows with
  | none => .threw s
  | some rs => .ok (validate_formulas_go (rowCodes rs) 0 rs s)

/-- The guard `!frm.doc.rows || frm.doc.rows.length === 0`. -/
def rowsMissingOrEmpty : Option (List Row) → Bool
  | none => true
  | some rs => rs.isEmpty

/-- The `validate(frm)` handler: print the missing-rows message when the row
table is absent or empty, then call `validate_formulas(frm)`
unconditionally. -/
def validate (s : FormState) : JsResult FormState :=
  let s1 := if rowsMissingOrEmpty s.doc.rows then msgprint .missingRows s else s
  validate_formulas s1

/-- The diagnostics emitted by running `validate` on a document, in order,
read from the final state whether or not the run threw. -/
def runDiags (t : Template) : List Diag :=
  (validate { doc := t, diags := [] }).state.diags

/-! Pure characterisations of the emitted diagnostics, used to state and
prove the properties.  Each mirrors the corresponding state transformer. -/

/-- Diagnostics produced by one pass of the referential `forEach` loop. -/
def refDiagsPure (codes : List String) (f : String) (i : Nat) (cs : List String) : List Diag :=
  cs.filterMap (fun code =>
    if jsIncludes f code && !(codes.contains code) then some (.unknownRefCode (i + 1) code)
    else none)

/-- Diagnostics produced for a single row. -/
def rowDiags (codes : List String) (i : Nat) (row : Row) : List Diag :=
  match row.calculation_formula with
  | none => []
  | some f =>
    if f = "" then []
    else
      (if open_count f ≠ close_count f then [Diag.unbalancedParens (i + 1)] else []) ++
      (if row.row_type = some "Formula/Calculation" then refDiagsPure codes f i codes else [])

/-- Diagnostics produced by the row loop started at index `i`. -/
def formulasDiags (codes : List String) : Nat → List Row → List Diag
  | _, [] => []
  | i, row :: rest => rowDiags codes i row ++ formulasDiags codes (i + 1) rest

/-- All diagnostics `validate` emits on a document, in emission order: the
missing-rows message first when the table is absent or empty, then the
per-row formula diagnostics in ascending row order. -/
def validateDiags (t : Template) : List Diag :=
  (if rowsMissingOrEmpty t.rows then [Diag.missingRows] else []) ++
  (match t.rows with
   | none => []
   | some rs => formulasDiags (rowCodes rs) 0 rs)

/-- Whether a row would trigger the unbalanced-parentheses message: a truthy
formula whose parenthesis counts differ. -/
def rowUnbalanced (row : Row) : Bool :=
  match row.calculation_formula with
  | none => false
  | some f => decide (f ≠ "") && decide (open_count f ≠ close_count f)

/-- The spec's description of `row_codes`: the order-preserving projection of
`reference_code` over the rows with empty and absent values removed and
duplicates retained. -/
def specRowCodes (rows : List Row) : List String :=
  rows.filterMap (fun r =>
    match r.reference_code with
    | none => none
    | some c => if c = "" then none else some c)

/-! Basic frame and characterisation lemmas. -/

theorem msgprint_doc (d : Diag) (s : FormState) : (msgprint d s).doc = s.doc := rfl

theorem emitRefDiags_spec (codes : List String) (f : String) (i : Nat) :
    ∀ (cs : List String) (doc : Template) (ds : List Diag),
      emitRefDiags codes f i cs ⟨doc, ds⟩ = ⟨doc, ds ++ refDiagsPure codes f i cs⟩ := by
  intro cs
  induction cs with
  | nil => intro doc ds; simp [emitRefDiags, refDiagsPure]
  | cons code rest ih =>
    intro doc ds
    cases hb : jsIncludes f code && !(codes.contains code) with
    | true =>
      simp only [emitRefDiags, hb, if_true, msgprint, refDiagsPure, List.filterMap_cons]
      rw [ih]
      simp [refDiagsPure]
    | false =>
      simp only [emitRefDiags, hb, msgprint, refDiagsPure, List.filterMap_cons]
      rw [if_neg (by simp), ih]
      simp [refDiagsPure]

theorem emitRow_spec (codes : List String) (i : Nat) (row : Row)
    (doc : Template) (ds : List Diag) :
    emitRow codes i row ⟨doc, ds⟩ = ⟨doc, ds ++ rowDiags codes i row⟩ := by
  unfold emitRow rowDiags
  cases hf : row.calculation_formula with
  | none => simp
  | some f =>
    by_cases he : f = ""
    · simp [he]
    · simp only [if_neg he]
      by_cases hp : open_count f ≠ close_count f
      · by_cases ht : row.row_type = some "Formula/Calculation"
        · simp only [if_pos hp, if_pos ht, msgprint, emitRefDiags_spec]
          simp
        · simp [hp, ht, msgprint]
      · by_cases ht : row.row_type = some "Formula/Calculation"
        · simp only [if_neg hp, if_pos ht, emitRefDiags_spec]
          simp
        · simp [hp, ht]

theorem validate_formulas_go_spec (codes : List String) :
    ∀ (rs : List Row) (i : Nat) (doc : Template) (ds : List Diag),
      validate_formulas_go codes i rs ⟨doc, ds⟩
        = ⟨doc, ds ++ formulasDiags codes i rs⟩ := by
  intro rs
  induction rs with
  | nil => intro i doc ds; simp [validate_formulas_go, formulasDiags]
  | cons row rest ih =>
    intro i doc ds
    simp only [validate_formulas_go, formulasDiags, emitRow_spec, ih]
    simp

theorem validate_rows_none (t : Template) (ds : List Diag) (h : t.rows = none) :
    validate ⟨t, ds⟩ = .threw ⟨t, ds ++ [Diag.missingRows]⟩ := by
  simp [validate, validate_formulas, rowsMissingOrEmpty, h, msgprint]

theorem validate_rows_some (t : Template) (ds : List Diag) (rs : List Row) (h : t.rows = some rs) :
    validate ⟨t, ds⟩ = .ok ⟨t, ds ++ validateDiags t⟩ := by
  by_cases he : rs.isEmpty
  · simp [validate, validate_formulas, rowsMissingOrEmpty, h, he, msgprint,
      validate_formulas_go_spec, validateDiags]
  · simp [validate, validate_formulas, rowsMissingOrEmpty, h, he, msgprint,
      validate_formulas_go_spec, validateDiags]

theorem runDiags_eq (t : Template) : runDiags t = validateDiags t := by
  cases h : t.rows with
  | none =>
    simp [runDiags, validate_rows_none t [] h, JsResult.state, validateDiags,
      rowsMissingOrEmpty, h]
  | some rs =>
    simp [runDiags, validate_rows_some t [] rs h, JsResult.state]

theorem validate_doc_unchanged (s : FormState) : (validate s).state.doc = s.doc := by
  rcases s with ⟨t, ds⟩
  cases h : t.rows with
  | none => simp [validate_rows_none t ds h, JsResult.state]
  | some rs => simp [validate_rows_some t ds rs h, JsResult.state]

theorem refDiagsPure_sub_nil (codes : List String) (f : String) (i : Nat)
    (cs : List String) (h : ∀ c ∈ cs, c ∈ codes) : refDiagsPure codes f i cs = [] := by
  unfold refDiagsPure
  rw [List.filterMap_eq_nil_iff]
  intro c hc
  have hmem : codes.contains c = true := List.elem_eq_true_of_mem (h c hc)
  simp only [hmem, Bool.not_true, Bool.and_false, Bool.false_eq_true, if_false]

theorem refDiagsPure_self (codes : List String) (f : String) (i : Nat) :
    refDiagsPure codes f i codes = [] :=
  refDiagsPure_sub_nil codes f i codes (fun _ hc => hc)

theorem rowDiags_eq (codes : List String) (i : Nat) (row : Row) :
    rowDiags codes i row
      = if rowUnbalanced row then [Diag.unbalancedParens (i + 1)] else [] := by
  unfold rowDiags rowUnbalanced
  cases row.calculation_formula with
  | none => simp
  | some f =>
    by_cases he : f = ""
    · simp [he]
    · by_cases hp : open_count f ≠ close_count f
      · by_cases ht : row.row_type = some "Formula/Calculation" <;>
          simp [he, hp, ht, refDiagsPure_self]
      · by_cases ht : row.row_type = some "Formula/Calculation" <;>
          simp [he, hp, ht, refDiagsPure_self]

theorem mem_formulasDiags_unbal (codes : List String) :
    ∀ (rs : List Row) (k n : Nat),
      Diag.unbalancedParens n ∈ formulasDiags codes k rs
        ↔ ∃ j, ∃ row, rs[j]? = some row ∧ n = k + j + 1 ∧ rowUnbalanced row = true := by
  intro rs
  induction rs with
  | nil => intro k n; simp [formulasDiags]
  | cons row rest ih =>
    intro k n
    simp only [formulasDiags, List.mem_append, rowDiags_eq, ih]
    constructor
    · rintro (h | ⟨j, r, hj, hn, hu⟩)
      · by_cases hu : rowUnbalanced row = true
        · rw [if_pos hu] at h
          simp at h
          exact ⟨0, row, by simp, by omega, hu⟩
        · rw [if_neg hu] at h
          simp at h
      · exact ⟨j + 1, r, by simpa using hj, by omega, hu⟩
    · rintro ⟨j, r, hj, hn, hu⟩
      cases j with
      | zero =>
        simp only [List.getElem?_cons_zero, Option.some_inj] at hj
        subst hj
        left
        rw [if_pos hu]
        simp [hn]
      | succ j =>
        right
        exact ⟨j, r, by simpa using hj, by omega, hu⟩

theorem unknownRefCode_notMem_formulasDiags (codes : List String) (n : Nat) (c : String) :
    ∀ (rs : List Row) (k : Nat), Diag.unknownRefCode n c ∉ formulasDiags codes k rs := by
  intro rs
  induction rs with
  | nil => intro k; simp [formulasDiags]
  | cons row rest ih =>
    intro k
    simp only [formulasDiags, List.mem_append, rowDiags_eq]
    rintro (h | h)
    · by_cases hu : rowUnbalanced row = true
      · rw [if_pos hu] at h; simp at h
      · rw [if_neg hu] at h; simp at h
    · exact ih (k + 1) h

theorem mem_runDiags_unbal (t : Template) (rs : List Row) (h : t.rows = some rs) (n : Nat) :
    Diag.unbalancedParens n ∈ runDiags t
      ↔ ∃ j, ∃ row, rs[j]? = some row ∧ n = j + 1 ∧ rowUnbalanced row = true := by
  rw [runDiags_eq]
  unfold validateDiags
  rw [h]
  simp only [List.mem_append, mem_formulasDiags_unbal, rowsMissingOrEmpty]
  constructor
  · rintro (hm | ⟨j, r, hj, hn, hu⟩)
    · by_cases he : rs.isEmpty <;> simp [he] at hm
    · exact ⟨j, r, hj, by omega, hu⟩
  · rintro ⟨j, r, hj, hn, hu⟩
    right
    exact ⟨j, r, hj, by omega, hu⟩

/-! Claims. -/

/-- C1: for every template, validation never emits an `UnknownReferenceCode`
diagnostic: the referential check iterates codes drawn from `row_codes` and
fires only when that same code is not a member of `row_codes`, so the
condition is unsatisfiable; in particular rows whose `row_type` is not
"Formula/Calculation" never produce it either. -/
theorem unknownRefCode_never_emitted (t : Template) (n : Nat) (c : String) :
    Diag.unknownRefCode n c ∉ runDiags t := by
  rw [runDiags_eq]
  unfold validateDiags
  intro hmem
  rcases List.mem_append.mp hmem with hm | hf
  · by_cases hc : rowsMissingOrEmpty t.rows <;> simp [hc] at hm
  · cases h : t.rows with
    | none => rw [h] at hf; simp at hf
    | some rs => rw [h] at hf; exact unknownRefCode_notMem_formulasDiags _ n c rs 0 hf

/-- C2: evaluation of the code at a template whose row table is absent: the
`validate` handler prints the missing-rows message and then throws, because
`validate_formulas` evaluates `frm.doc.rows.map(...)` on `undefined`.  This
contradicts the claim that the validator raises no exception for any input. -/
theorem validate_throws_on_absent_rows :
    (validate ⟨⟨false, none⟩, []⟩).isThrew = true := rfl

/-- C3: for every row with a non-empty `calculation_formula`, the
unbalanced-parentheses diagnostic with the 1-based row index is emitted if
and only if the counts of left and right parentheses in the formula text
differ; order and nesting are ignored. -/
theorem unbalanced_iff_counts_differ (t : Template) (rs : List Row) (i : Nat) (row : Row)
    (f : String) (h : t.rows = some rs) (hrow : rs[i]? = some row)
    (hf : row.calculation_formula = some f) (hne : f ≠ "") :
    Diag.unbalancedParens (i + 1) ∈ runDiags t ↔ open_count f ≠ close_count f := by
  rw [mem_runDiags_unbal t rs h]
  constructor
  · rintro ⟨j, r, hj, hn, hu⟩
    have hji : j = i := by omega
    subst hji
    rw [hrow] at hj
    injection hj with hr
    subst hr
    simp only [rowUnbalanced, hf, Bool.and_eq_true, decide_eq_true_iff] at hu
    exact hu.2
  · intro hcounts
    refine ⟨i, row, hrow, rfl, ?_⟩
    simp only [rowUnbalanced, hf, Bool.and_eq_true, decide_eq_true_iff]
    exact ⟨hne, hcounts⟩

/-- Witness for C3 at the spec's example "(A+B": the diagnostic for row 1 is
equivalent to the counts differing, which they do. -/
theorem unbalanced_iff_counts_differ_witness :
    (Diag.unbalancedParens 1 ∈ runDiags ⟨false, some [⟨none, none, some "(A+B"⟩]⟩
      ↔ open_count "(A+B" ≠ close_count "(A+B") ∧ open_count "(A+B" ≠ close_count "(A+B" :=
  ⟨unbalanced_iff_counts_differ ⟨false, some [⟨none, none, some "(A+B"⟩]⟩
      [⟨none, none, some "(A+B"⟩] 0 ⟨none, none, some "(A+B"⟩ "(A+B"
      rfl rfl rfl (by decide), by decide⟩

/-- C4: for every template whose row table is present but empty, validation
completes normally and emits exactly the missing-rows diagnostic and nothing
else. -/
theorem empty_rows_exactly_missing (t : Template) (h : t.rows = some []) :
    validate ⟨t, []⟩ = .ok ⟨t, [Diag.missingRows]⟩ := by
  rw [validate_rows_some t [] [] h]
  unfold validateDiags
  rw [h]
  simp [rowsMissingOrEmpty, formulasDiags]

/-- Witness for C4 at a concrete template with an empty row table. -/
theorem empty_rows_exactly_missing_witness :
    validate ⟨⟨false, some []⟩, []⟩ = .ok ⟨⟨false, some []⟩, [Diag.missingRows]⟩ :=
  empty_rows_exactly_missing ⟨false, some []⟩ rfl

/-- C5: the computed `row_codes` equals the order-preserving projection of
`reference_code` over the rows with all empty or absent values removed and
duplicates retained. -/
theorem rowCodes_eq_specRowCodes (rows : List Row) : rowCodes rows = specRowCodes rows := by
  induction rows with
  | nil => rfl
  | cons r rest ih =>
    unfold rowCodes specRowCodes
    unfold rowCodes specRowCodes at ih
    simp only [List.map_cons, List.filter_cons, List.filterMap_cons]
    cases hr : r.reference_code with
    | none => simpa [jsTruthy] using ih
    | some c =>
      by_cases he : c = ""
      · simpa [jsTruthy, he] using ih
      · simpa [jsTruthy, he] using congrArg (List.cons c) ih

/-- C6: evaluation of the code at a template whose row table is absent: the
run ends in a thrown error rather than completing with only diagnostic
messages, so validation is not effect-free advisory on every input; the
document itself is nevertheless left unchanged in the final state. -/
theorem absent_rows_throws_but_doc_unchanged :
    validate ⟨⟨false, none⟩, []⟩ = .threw ⟨⟨false, none⟩, [Diag.missingRows]⟩ := rfl

/-- C7: a row whose `calculation_formula` is absent or empty (falsy) is
skipped outright by the row loop body: it contributes no diagnostic of any
kind and leaves the state untouched, regardless of its `row_type` or
`reference_code`. -/
theorem blank_formula_row_skipped (codes : List String) (i : Nat) (row : Row) (s : FormState)
    (h : jsTruthy row.calculation_formula = false) : emitRow codes i row s = s := by
  unfold emitRow
  cases hf : row.calculation_formula with
  | none => rfl
  | some f =>
    rw [hf] at h
    simp only [jsTruthy, decide_eq_false_iff_not, not_not] at h
    simp [h]

/-- Witness for C7 at a row with an empty formula but a reference code and a
formula-typed `row_type`. -/
theorem blank_formula_row_skipped_witness :
    jsTruthy (Row.mk (some "A") (some "Formula/Calculation") (some "")).calculation_formula
        = false ∧
      emitRow ["A"] 0 ⟨some "A", some "Formula/Calculation", some ""⟩ ⟨⟨false, some []⟩, []⟩
        = ⟨⟨false, some []⟩, []⟩ :=
  ⟨by decide,
    blank_formula_row_skipped ["A"] 0 ⟨some "A", some "Formula/Calculation", some ""⟩
      ⟨⟨false, some []⟩, []⟩ (by decide)⟩

/-- C8: the validator is deterministic: runs on equal template inputs produce
identical outcomes, diagnostic sequences included; the output depends on
nothing beyond the template passed in. -/
theorem validate_deterministic (t₁ t₂ : Template) (h : t₁ = t₂) :
    validate ⟨t₁, []⟩ = validate ⟨t₂, []⟩ := by rw [h]

/-- Witness for C8 at a concrete template. -/
theorem validate_deterministic_witness :
    (⟨false, some []⟩ : Template) = ⟨false, some []⟩ ∧
      validate ⟨⟨false, some []⟩, []⟩ = validate ⟨⟨false, some []⟩, []⟩ :=
  ⟨rfl, validate_deterministic ⟨false, some []⟩ ⟨false, some []⟩ rfl⟩

/-- C9: the unbalanced-parentheses check is not gated by `row_type`: a row
with a non-empty formula whose parenthesis counts differ gets the diagnostic
even when its `row_type` is not "Formula/Calculation". -/
theorem unbalanced_not_gated_by_row_type (t : Template) (rs : List Row) (i : Nat) (row : Row)
    (f : String) (h : t.rows = some rs) (hrow : rs[i]? = some row)
    (hf : row.calculation_formula = some f) (hne : f ≠ "")
    (_ht : row.row_type ≠ some "Formula/Calculation")
    (hp : open_count f ≠ close_count f) :
    Diag.unbalancedParens (i + 1) ∈ runDiags t := by
  rw [mem_runDiags_unbal t rs h]
  refine ⟨i, row, hrow, rfl, ?_⟩
  simp only [rowUnbalanced, hf, Bool.and_eq_true, decide_eq_true_iff]
  exact ⟨hne, hp⟩

/-- Witness for C9 at a data-typed row whose formula is "((". -/
theorem unbalanced_not_gated_by_row_type_witness :
    Diag.unbalancedParens 1 ∈ runDiags ⟨false, some [⟨none, some "Data", some "(("⟩]⟩ :=
  unbalanced_not_gated_by_row_type ⟨false, some [⟨none, some "Data", some "(("⟩]⟩
    [⟨none, some "Data", some "(("⟩] 0 ⟨none, some "Data", some "(("⟩ "(("
    rfl rfl rfl (by decide) (by decide) (by decide)

/-- C10: diagnostics are emitted in a fixed order: the missing-rows message
(when the row table is absent or empty) comes first, the per-row formula
diagnostics follow in ascending row-index order, and within a row the
unbalanced-parentheses diagnostic precedes any reference diagnostic, as laid
out by `validateDiags`, `formulasDiags` and `rowDiags`. -/
theorem diagnostics_emitted_in_order (t : Template) : runDiags t = validateDiags t :=
  runDiags_eq t

end FinancialReportTemplate
